import Mathlib

/-!
Verification of the shaart orchestrator's core subsystems against its
specification: remediation-status transitions, vulnerability identity
hashing, the save-deliverable tool, the agent retry loop, the session
state machine and the metrics tracker.  Components whose implementation
files are not in the repository snapshot (session manager, metrics
tracker, exploit-memory database) are modelled from the specification,
as marked on each definition.
-/

namespace Shaart

/-! ## Remediation status state machine

Transcribed from `src/mcp-server/src/tools/verify-remediation.js`. -/

/-- The `validTransitions` table of `verifyRemediation`
(verify-remediation.js lines 70-76), keyed by the current
`remediation_status`; `none` corresponds to a key absent from the
JavaScript object (the optional-chaining branch). -/
def validTransitions : String → Option (List String)
  | "open" => some ["fixed", "false_positive", "wont_fix"]
  | "fixed" => some ["verified", "open"]
  | "verified" => some ["open"]
  | "false_positive" => some ["open"]
  | "wont_fix" => some ["open"]
  | _ => none

/-- `validTransitions[old_status]?.includes(new_status)` from
verify-remediation.js line 78. -/
def transitionAllowed (old_status new_status : String) : Bool :=
  match validTransitions old_status with
  | some l => l.contains new_status
  | none => false

/-- A stored vulnerability row (data model of spec section 3). -/
structure Vulnerability where
  id : String
  hostname : String
  vuln_type : String
  source : String
  path : String
  sink_call : Option String
  confidence : Nat
  remediation_status : String
  last_verified_at : Nat
  deriving Repr, DecidableEq

/-- A remediation-history row, appended on every status transition. -/
structure RemediationHistoryEntry where
  id : Nat
  vulnerability_id : String
  old_status : String
  new_status : String
  verification_method : Option String
  notes : Option String
  deriving Repr, DecidableEq

/-- Per-hostname exploit-memory store contents relevant to
remediation verification. -/
structure ExploitDB where
  vulns : List Vulnerability
  history : List RemediationHistoryEntry
  nextHistoryId : Nat
  deriving Repr, DecidableEq

/-- Modelled from the spec: `getVulnerability(db, id)` of the
exploit-memory database (src/exploit-memory/database.js is not in the
snapshot) returns the full record or a not-found sentinel. -/
def getVulnerability (db : ExploitDB) (id : String) : Option Vulnerability :=
  db.vulns.find? (fun v => v.id == id)

/-- Modelled from the spec: `updateVulnerabilityStatus(db, id, newStatus)`
updates the record and `last_verified_at` (the transition check lives in
the caller `verifyRemediation`, which is in the snapshot). -/
def updateVulnerabilityStatus (db : ExploitDB) (id new_status : String)
    (now : Nat) : ExploitDB :=
  { db with
    vulns := db.vulns.map (fun v =>
      if v.id == id then
        { v with remediation_status := new_status, last_verified_at := now }
      else v) }

/-- Modelled from the spec: `recordRemediationHistory` is a pure append
returning the new history row id. -/
def recordRemediationHistory (db : ExploitDB)
    (vulnerability_id old_status new_status : String)
    (verification_method notes : Option String) : Nat × ExploitDB :=
  let rowId := db.nextHistoryId
  (rowId,
   { db with
     history := db.history ++
       [{ id := rowId, vulnerability_id, old_status, new_status,
          verification_method, notes }],
     nextHistoryId := rowId + 1 })

/-- Outcome of the `verify_remediation` tool: either a success result or
a validation-error result (both are returned to the caller as tool
results, never thrown). -/
inductive VerifyOutcome where
  | success (old_status new_status : String) (history_id : Nat)
  | validationError (message : String)
  deriving Repr, DecidableEq

/-- `verifyRemediation` (verify-remediation.js lines 42-134): looks up
the vulnerability, validates the requested status transition against
`validTransitions`, and either performs the update plus a history append
or rejects with a validation error leaving the store untouched. -/
def verifyRemediation (db : ExploitDB) (vulnerability_id new_status : String)
    (verification_method notes : Option String) (now : Nat) :
    VerifyOutcome × ExploitDB :=
  match getVulnerability db vulnerability_id with
  | none =>
      (.validationError ("Vulnerability " ++ vulnerability_id ++ " not found"), db)
  | some vulnerability =>
      let old_status := vulnerability.remediation_status
      if transitionAllowed old_status new_status then
        let db1 := updateVulnerabilityStatus db vulnerability_id new_status now
        let (hid, db2) := recordRemediationHistory db1 vulnerability_id
          old_status new_status verification_method notes
        (.success old_status new_status hid, db2)
      else
        (.validationError
          ("Invalid status transition from " ++ old_status ++ " to " ++ new_status),
         db)

/-- The state machine exactly as the claim lists it (open to fixed,
false_positive or wont_fix; fixed to verified or open; verified, false
positive and wont_fix back to open).  Stated separately from
`validTransitions` so the theorem compares the code table against the
claimed one. -/
def ClaimedTransition (old_status new_status : String) : Prop :=
  (old_status = "open" ∧
    (new_status = "fixed" ∨ new_status = "false_positive" ∨
     new_status = "wont_fix"))
  ∨ (old_status = "fixed" ∧ (new_status = "verified" ∨ new_status = "open"))
  ∨ (old_status = "verified" ∧ new_status = "open")
  ∨ (old_status = "false_positive" ∧ new_status = "open")
  ∨ (old_status = "wont_fix" ∧ new_status = "open")

/-! ## Identity hashing for deduplication -/

/-- Free-text exploitation data attached to a finding. -/
structure ExploitationData where
  description : Option String
  impact : Option String
  remediation : Option String
  deriving Repr, DecidableEq

/-- The `vulnData` payload built by `saveVulnerabilitiesToExploitMemory`
(save-deliverable.js lines 63-76) and passed to the identity hasher. -/
structure VulnData where
  hostname : String
  vuln_type : String
  source : String
  path : String
  sink_call : Option String
  confidence : Nat
  exploitation_data : ExploitationData
  deriving Repr, DecidableEq

/-- A deterministic digest of a string (stand-in for the store's
collision-resistant digest; any pure function preserves the properties
claimed here). -/
def hashDigest (s : String) : String :=
  toString (s.foldl (fun h c => (h * 31 + c.toNat) % 4294967296) 5381)

/-- Modelled from the spec: `generateIdentityHash(vulnData, strategy)`
(src/exploit-memory/deduplicator.js is not in the snapshot) is a pure,
deterministic function of the identity fields; the `strict` strategy
includes the exact `path` and `sink_call` together with `hostname`,
`vuln_type` and `source`, and per the spec's testable property the hash
of two payloads agreeing on those five fields is equal regardless of
their `exploitation_data`.  Looser strategies collapse `sink_call` and
`path`. -/
def generateIdentityHash (v : VulnData) (strategy : String) : String :=
  let fields :=
    if strategy == "strict" then
      [v.hostname, v.vuln_type, v.source, v.path, v.sink_call.getD "null"]
    else
      [v.hostname, v.vuln_type, v.source]
  hashDigest (String.intercalate "|" fields)

/-! ## The save_deliverable tool

Embedded from `src/mcp-server/src/tools/save-deliverable.js`.  The
external effects the tool performs (queue validation, the file write,
the exploit-memory database and the credential extractor) are
abstracted as an environment recording how each fallible call behaves;
`Except.error` stands for a thrown JavaScript error. -/

/-- Behaviour of the external collaborators during one `saveDeliverable`
call. -/
structure SaveEnv where
  /-- `isQueueType(deliverable_type)` -/
  isQueue : Bool
  /-- whether the deliverable type name contains EVIDENCE -/
  isEvidence : Bool
  /-- `validateQueueJson(content).valid` -/
  queueValid : Bool
  /-- `validateQueueJson(content).message` -/
  queueMessage : String
  /-- `saveDeliverableFile(filename, content)`: the file path, or a thrown error -/
  fileSave : Except String String
  /-- the global hostname, when set by the session -/
  hostname : Option String
  /-- `JSON.parse(content).vulnerabilities.length`, or a thrown parse error -/
  parsedVulnCount : Except String Nat
  /-- the enabled flag of the exploit-memory configuration -/
  exploitMemoryEnabled : Bool
  /-- `getDatabase(hostname)` plus `upsertApplication`: ok, or a thrown error -/
  dbOpen : Except String Unit
  /-- per-vulnerability identity hashing and upsert outcomes -/
  vulnSaves : List (Except String Unit)
  /-- `extractCredentials` outcome and, on success, per-credential save outcomes -/
  credentialExtract : Except String (List (Except String Unit))
  deriving Repr

/-- The reply object a tool call resolves with. -/
structure ToolReply where
  status : String
  message : String
  deriving Repr, DecidableEq

/-- Result of one `saveDeliverable` call together with its observable
effects. -/
structure SaveOutcome where
  reply : ToolReply
  fileSaved : Bool
  warnings : List String
  exploitMemorySaved : Option Nat
  deriving Repr, DecidableEq

/-- `saveVulnerabilitiesToExploitMemory` (save-deliverable.js lines
44-92): every failure, of the store as a whole or of a single
vulnerability, is caught and logged as a warning; the function never
throws to its caller. -/
def saveVulnerabilitiesToExploitMemory (env : SaveEnv) : List String :=
  if !env.exploitMemoryEnabled then []
  else
    match env.dbOpen with
    | .error e => ["Failed to save to exploit memory: " ++ e]
    | .ok _ =>
        env.vulnSaves.filterMap (fun r =>
          match r with
          | .error e => some ("Failed to save vulnerability to exploit memory: " ++ e)
          | .ok _ => none)

/-- `saveCredentialsToExploitMemory` (save-deliverable.js lines
101-137): likewise catches everything internally and reports warnings
only. -/
def saveCredentialsToExploitMemory (env : SaveEnv) : List String :=
  if !env.exploitMemoryEnabled then []
  else
    match env.credentialExtract with
    | .error e => ["Failed to extract credentials: " ++ e]
    | .ok saves =>
        saves.filterMap (fun r =>
          match r with
          | .error e => some ("Failed to save credential to exploit memory: " ++ e)
          | .ok _ => none)

/-- The body of `saveDeliverable` (save-deliverable.js lines 147-202):
queue validation, the file write, then the two best-effort
exploit-memory phases each guarded by its own try/catch.  An
`Except.error` escaping this body models an error reaching the outer
catch. -/
def saveDeliverableBody (env : SaveEnv) : Except String SaveOutcome := do
  if env.isQueue && !env.queueValid then
    return { reply := { status := "error", message := env.queueMessage },
             fileSaved := false, warnings := [], exploitMemorySaved := none }
  let _filepath ← env.fileSave
  let queueWarnings :=
    match env.hostname with
    | none => []
    | some _ =>
        if env.isQueue then
          match env.parsedVulnCount with
          | .error e => ["Failed to save to exploit memory: " ++ e]
          | .ok n => if 0 < n then saveVulnerabilitiesToExploitMemory env else []
        else []
  let emSaved :=
    match env.hostname with
    | none => none
    | some _ =>
        if env.isQueue then
          match env.parsedVulnCount with
          | .ok n => if 0 < n then some n else none
          | .error _ => none
        else none
  let credWarnings :=
    match env.hostname with
    | none => []
    | some _ => if env.isEvidence then saveCredentialsToExploitMemory env else []
  return { reply := { status := "success",
                      message := "Deliverable saved successfully" },
           fileSaved := true, warnings := queueWarnings ++ credWarnings,
           exploitMemorySaved := emSaved }

/-- `saveDeliverable` with its outer try/catch: every thrown error is
converted into a generic error reply, so the tool always resolves with
a tool result. -/
def saveDeliverable (env : SaveEnv) : SaveOutcome :=
  match saveDeliverableBody env with
  | .ok r => r
  | .error e =>
      { reply := { status := "error", message := e }, fileSaved := false,
        warnings := [], exploitMemorySaved := none }

/-! ## The agent retry loop

Embedded from `runClaudePromptWithRetry`
(src/mcp-server/src/index.js lines 1455-1594).  `runClaudePrompt`
(lines 954-1443) catches every execution error and returns a result
object with `success` false and a retryable flag, so the events an
attempt can produce are: a validated success, a success whose output
validation failed, a returned failure, or an error thrown inside the
try block (for example by the audit or git-commit calls; the final
validation failure also throws a PentestError from within the try). -/

/-- What one attempt of the loop body observes. -/
inductive AttemptEvent where
  /-- `runClaudePrompt` returned success and `validateAgentOutput` passed -/
  | ok
  /-- returned success but output validation failed; the flag records
  `result.apiErrorDetected` -/
  | valFail (apiErr : Bool)
  /-- `runClaudePrompt` caught an execution error and returned a result
  with `success` false and the given retryable classification -/
  | resFail (retryable : Bool)
  /-- an error was thrown inside the try block -/
  | thrown (retryable : Bool)
  deriving Repr, DecidableEq

/-- The errors the loop can propagate. -/
inductive RetryErr where
  /-- the PentestError of kind validation thrown after the final
  validation failure, constructed with retryable false -/
  | validationPentest
  /-- the plain Error stored in `lastError` on a non-final validation
  failure (API-error variant when the flag is true) -/
  | validationErr (apiErr : Bool)
  /-- an error thrown during the attempt -/
  | external (retryable : Bool)
  deriving Repr, DecidableEq

/-- Modelled from the spec: `isRetryableError`
(src/error-handling.js is not in the snapshot) — the loop treats the
retryable classification of a thrown error as authoritative, and the
PentestError thrown on the final validation failure carries retryable
false.  Errors of the `validationErr` shape are never passed to this
check by the loop. -/
def isRetryableErr : RetryErr → Bool
  | .validationPentest => false
  | .validationErr _ => false
  | .external r => r

/-- How one run of the loop ended, with the workspace rollbacks it
performed. -/
inductive RetryOutcome where
  /-- returned the successful result of the given attempt -/
  | success (attempt : Nat)
  /-- threw the given error -/
  | threw (e : RetryErr)
  /-- executed `throw lastError` with `lastError` never assigned -/
  | threwUndefined
  deriving Repr, DecidableEq

/-- Observable trace of a `runClaudePromptWithRetry` call. -/
structure RetryTrace where
  /-- the `rollbackGitWorkspace` calls: attempt number and reason string -/
  rollbacks : List (Nat × String)
  /-- how many attempts were started -/
  attemptsRun : Nat
  outcome : RetryOutcome
  deriving Repr, DecidableEq

/-- `maxRetries` (index.js line 1456). -/
def maxRetries : Nat := 3

/-- One pass of the for loop of `runClaudePromptWithRetry`, with `fuel`
the number of attempts still allowed (`maxRetries - attempt + 1`).
Follows the source line by line: the validated success returns; a
validation failure rolls back and retries, or on the final attempt
throws a non-retryable PentestError that its own catch block rolls back
and propagates; a thrown error rolls back and either propagates
(non-retryable), retries, or after the final attempt falls out of the
loop; and a result with `success` false matches no branch of the body,
so the loop silently proceeds to the next attempt. -/
def runRetryAux (events : Nat → AttemptEvent) :
    Nat → Nat → Option RetryErr → List (Nat × String) → Nat → RetryTrace
  | 0, _, lastError, rbs, ran =>
      { rollbacks := rbs.reverse, attemptsRun := ran,
        outcome :=
          match lastError with
          | some e => .threw e
          | none => .threwUndefined }
  | fuel + 1, attempt, lastError, rbs, ran =>
      match events attempt with
      | .ok =>
          { rollbacks := rbs.reverse, attemptsRun := ran + 1,
            outcome := .success attempt }
      | .valFail apiErr =>
          if attempt < maxRetries then
            runRetryAux events fuel (attempt + 1)
              (some (.validationErr apiErr))
              ((attempt, "validation failure") :: rbs) (ran + 1)
          else
            { rollbacks :=
                rbs.reverse ++ [(attempt, "non-retryable error cleanup")],
              attemptsRun := ran + 1, outcome := .threw .validationPentest }
      | .resFail _ =>
          runRetryAux events fuel (attempt + 1) lastError rbs (ran + 1)
      | .thrown r =>
          if isRetryableErr (.external r) then
            if attempt < maxRetries then
              runRetryAux events fuel (attempt + 1) (some (.external r))
                ((attempt, "retryable error cleanup") :: rbs) (ran + 1)
            else
              { rollbacks :=
                  rbs.reverse ++ [(attempt, "final failure cleanup")],
                attemptsRun := ran + 1, outcome := .threw (.external r) }
          else
            { rollbacks :=
                rbs.reverse ++ [(attempt, "non-retryable error cleanup")],
              attemptsRun := ran + 1, outcome := .threw (.external r) }

/-- `runClaudePromptWithRetry`, as a function of the behaviour of its
successive attempts. -/
def runClaudePromptWithRetry (events : Nat → AttemptEvent) : RetryTrace :=
  runRetryAux events maxRetries 1 none [] 0

/-! ## Session manager

Modelled from the spec: src/session-manager.js is not in the snapshot
(only its test suite is); the operations below follow the operation
contracts of spec section 4.1 and the behaviours pinned down by the
session-manager tests.  The agent registry is passed as a parameter
since the spec treats it as immutable static data. -/

/-- A registry entry (spec section 3, Agent). -/
structure AgentDef where
  name : String
  phase : String
  order : Nat
  prerequisites : List String
  deriving Repr, DecidableEq

/-- A persisted session (spec section 3, Session). -/
structure Session where
  id : Nat
  webUrl : String
  repoPath : String
  targetRepo : String
  configFile : Option String
  status : String
  completedAgents : List String
  failedAgents : List String
  checkpoints : List (String × String)
  deriving Repr, DecidableEq

/-- The session store document: all sessions plus a fresh-id counter
standing for unique id generation. -/
structure SessionStore where
  sessions : List Session
  nextId : Nat
  deriving Repr, DecidableEq

/-- Checkpoint lookup in a session's agent-to-commit mapping. -/
def lookupCheckpoint (cps : List (String × String)) (name : String) :
    Option String :=
  (cps.find? (fun p => p.1 == name)).map (fun p => p.2)

/-- Record or replace an agent's checkpoint commit id. -/
def setCheckpoint (cps : List (String × String)) (name cp : String) :
    List (String × String) :=
  if (cps.find? (fun p => p.1 == name)).isSome then
    cps.map (fun p => if p.1 == name then (p.1, cp) else p)
  else cps ++ [(name, cp)]

/-- The `order` field of a registry agent. -/
def orderOf (agents : List AgentDef) (name : String) : Option Nat :=
  (agents.find? (fun a => a.name == name)).map (fun a => a.order)

/-- Set-style insertion into an agent-name list. -/
def insertIfAbsent (l : List String) (a : String) : List String :=
  if l.contains a then l else l ++ [a]

/-- Modelled from the spec: `createSession(webUrl, repoPath, configFile?,
targetRepo?)` returns the existing session when one with status
in-progress exists for the same webUrl and repoPath pair, and otherwise
creates a new session with empty completed and failed sets and empty
checkpoints. -/
def createSession (store : SessionStore) (webUrl repoPath : String)
    (configFile targetRepo : Option String) : Session × SessionStore :=
  match store.sessions.find? (fun s =>
      s.webUrl == webUrl && s.repoPath == repoPath &&
      s.status == "in-progress") with
  | some s => (s, store)
  | none =>
      let s : Session :=
        { id := store.nextId, webUrl, repoPath,
          targetRepo := targetRepo.getD repoPath, configFile,
          status := "in-progress", completedAgents := [], failedAgents := [],
          checkpoints := [] }
      (s, { sessions := store.sessions ++ [s], nextId := store.nextId + 1 })

/-- Modelled from the spec: `getSession(id)`. -/
def getSession (store : SessionStore) (id : Nat) : Option Session :=
  store.sessions.find? (fun s => s.id == id)

/-- Modelled from the spec: the update helper shared by the mutating
session operations; fails with a not-found error naming the session. -/
def updateSessionWith (store : SessionStore) (id : Nat)
    (f : Session → Session) : Except String (Session × SessionStore) :=
  match getSession store id with
  | none => .error ("Session " ++ toString id ++ " not found")
  | some s =>
      .ok (f s,
        { store with
          sessions := store.sessions.map (fun t =>
            if t.id == id then f t else t) })

/-- Modelled from the spec: `updateSession(id, changes)` restricted to a
status change, the form the reuse scenario needs. -/
def updateSessionStatus (store : SessionStore) (id : Nat) (st : String) :
    Except String (Session × SessionStore) :=
  updateSessionWith store id (fun s => { s with status := st })

/-- The session transform of `markAgentCompleted`: adds the agent to
completedAgents, removes it from failedAgents, records the checkpoint,
and sets the status to completed exactly when every registry agent is
completed. -/
def completeAgentOnSession (agents : List AgentDef) (name cp : String)
    (s : Session) : Session :=
  let completed := insertIfAbsent s.completedAgents name
  { s with
    completedAgents := completed,
    failedAgents := s.failedAgents.filter (fun a => a != name),
    checkpoints := setCheckpoint s.checkpoints name cp,
    status := if completed.length == agents.length then "completed"
              else "in-progress" }

/-- The session transform of `markAgentFailed`: adds the agent to
failedAgents and removes it from completedAgents. -/
def failAgentOnSession (name : String) (s : Session) : Session :=
  { s with
    failedAgents := insertIfAbsent s.failedAgents name,
    completedAgents := s.completedAgents.filter (fun a => a != name) }

/-- Modelled from the spec: `markAgentCompleted(sessionId, agentName,
checkpointId)`. -/
def markAgentCompleted (agents : List AgentDef) (store : SessionStore)
    (id : Nat) (name cp : String) : Except String (Session × SessionStore) :=
  updateSessionWith store id (completeAgentOnSession agents name cp)

/-- Modelled from the spec: `markAgentFailed(sessionId, agentName)`. -/
def markAgentFailed (store : SessionStore) (id : Nat) (name : String) :
    Except String (Session × SessionStore) :=
  updateSessionWith store id (failAgentOnSession name)

/-- Keep an agent name during a rollback exactly when its registry order
does not exceed the rollback target's order (names outside the registry
are untouched). -/
def keepUpTo (agents : List AgentDef) (targetOrder : Nat) (nm : String) :
    Bool :=
  match orderOf agents nm with
  | some o => decide (o ≤ targetOrder)
  | none => true

/-- The session transform of `rollbackToAgent`: drops every completed
agent and checkpoint entry whose order is greater than the target
order. -/
def rollbackSessionTo (agents : List AgentDef) (targetOrder : Nat)
    (s : Session) : Session :=
  { s with
    completedAgents := s.completedAgents.filter (keepUpTo agents targetOrder),
    checkpoints := s.checkpoints.filter (fun p => keepUpTo agents targetOrder p.1) }

/-- Modelled from the spec: `rollbackToAgent(sessionId, agentName)` fails
with a No checkpoint found error when the agent has no checkpoint entry,
and otherwise removes from completedAgents every agent whose order is
greater than the target's order, clearing their checkpoint entries. -/
def rollbackToAgent (agents : List AgentDef) (store : SessionStore)
    (id : Nat) (agentName : String) : Except String (Session × SessionStore) :=
  match getSession store id with
  | none => .error ("Session " ++ toString id ++ " not found")
  | some s =>
      match lookupCheckpoint s.checkpoints agentName with
      | none => .error ("No checkpoint found for agent " ++ agentName)
      | some _ =>
          match orderOf agents agentName with
          | none => .error ("Agent " ++ agentName ++ " not recognized")
          | some targetOrder =>
              updateSessionWith store id (rollbackSessionTo agents targetOrder)

/-- The two session mutations whose interleavings the mutual-exclusion
invariant quantifies over. -/
inductive SessionOp where
  | complete (name checkpointId : String)
  | fail (name : String)
  deriving Repr, DecidableEq

/-- Apply one mutation to a session. -/
def applySessionOp (agents : List AgentDef) (s : Session) :
    SessionOp → Session
  | .complete name cp => completeAgentOnSession agents name cp s
  | .fail name => failAgentOnSession name s

/-- Apply a sequence of mutations, left to right. -/
def applySessionOps (agents : List AgentDef) (s : Session)
    (ops : List SessionOp) : Session :=
  ops.foldl (applySessionOp agents) s

/-- No agent name is in both completedAgents and failedAgents. -/
def MutuallyExclusive (s : Session) : Prop :=
  ∀ a, a ∈ s.completedAgents → a ∉ s.failedAgents

/-- All session ids are below the store's fresh-id counter. -/
def IdsBounded (store : SessionStore) : Prop :=
  ∀ s ∈ store.sessions, s.id < store.nextId

/-! ## Metrics tracker

Modelled from the spec: src/audit/metrics-tracker.js is not in the
snapshot (only its test suite is); the operations below follow spec
section 4.2 and the metrics-tracker tests.  Costs are exact rationals;
the mapping of an agent to its phase is a parameter.  Every mutating
operation ends by recomputing the aggregates from the attempt
history. -/

/-- One recorded attempt of an agent. -/
structure Attempt where
  attempt_number : Nat
  duration_ms : Nat
  cost_usd : Rat
  success : Bool
  error : Option String
  deriving Repr, DecidableEq

/-- Current status of an agent in the audit record. -/
inductive AgentStatus where
  | success
  | failed
  | rolledBack
  deriving Repr, DecidableEq

/-- Per-agent audit metrics. -/
structure AgentMetrics where
  status : AgentStatus
  attempts : List Attempt
  final_duration_ms : Nat
  total_cost_usd : Rat
  checkpoint : Option String
  rolled_back_at : Option Nat
  deriving Repr, DecidableEq

/-- The entry created the first time an agent is ended. -/
def freshAgentMetrics : AgentMetrics :=
  { status := .failed, attempts := [], final_duration_ms := 0,
    total_cost_usd := 0, checkpoint := none, rolled_back_at := none }

/-- Per-phase rollup. -/
structure PhaseAgg where
  duration_ms : Nat
  cost_usd : Rat
  agent_count : Nat
  deriving Repr, DecidableEq

/-- The session.json metrics document. -/
structure Metrics where
  agents : List (String × AgentMetrics)
  total_duration_ms : Nat
  total_cost_usd : Rat
  phases : List (String × PhaseAgg)
  deriving Repr, DecidableEq

/-- A freshly initialized metrics document. -/
def initialMetrics : Metrics :=
  { agents := [], total_duration_ms := 0, total_cost_usd := 0, phases := [] }

/-- Look up an agent's metrics entry. -/
def lookupAgent (l : List (String × AgentMetrics)) (name : String) :
    Option AgentMetrics :=
  (l.find? (fun p => p.1 == name)).map (fun p => p.2)

/-- Replace or append an agent's metrics entry. -/
def setAgent (l : List (String × AgentMetrics)) (name : String)
    (a : AgentMetrics) : List (String × AgentMetrics) :=
  if (l.find? (fun p => p.1 == name)).isSome then
    l.map (fun p => if p.1 == name then (p.1, a) else p)
  else l ++ [(name, a)]

/-- The agents currently in the success state. -/
def successAgents (l : List (String × AgentMetrics)) :
    List (String × AgentMetrics) :=
  l.filter (fun p => p.2.status == AgentStatus.success)

/-- Modelled from the spec: `recalculateAggregations` walks every agent
in the success state and sums durations and costs into phase- and
total-level rollups; failed and rolled-back agents are excluded. -/
def recalculateAggregations (phaseOf : String → String) (m : Metrics) :
    Metrics :=
  let succ := successAgents m.agents
  let phaseNames := (succ.map (fun p => phaseOf p.1)).dedup
  { m with
    total_duration_ms := (succ.map (fun p => p.2.final_duration_ms)).sum,
    total_cost_usd := (succ.map (fun p => p.2.total_cost_usd)).sum,
    phases := phaseNames.map (fun ph =>
      let inPhase := succ.filter (fun p => phaseOf p.1 == ph)
      (ph,
       { duration_ms := (inPhase.map (fun p => p.2.final_duration_ms)).sum,
         cost_usd := (inPhase.map (fun p => p.2.total_cost_usd)).sum,
         agent_count := inPhase.length })) }

/-- The payload of an `endAgent` call. -/
structure EndAgentData where
  attemptNumber : Nat
  duration_ms : Nat
  cost_usd : Rat
  success : Bool
  error : Option String
  checkpoint : Option String
  deriving Repr, DecidableEq

/-- The attempt entry an `endAgent` payload is recorded as. -/
def attemptOf (d : EndAgentData) : Attempt :=
  { attempt_number := d.attemptNumber, duration_ms := d.duration_ms,
    cost_usd := d.cost_usd, success := d.success, error := d.error }

/-- The agent entry after one `endAgent` call: the attempt is appended,
the status recomputed, `final_duration_ms` updated only on success, and
`cost_usd` accumulated into `total_cost_usd` whether or not the attempt
succeeded. -/
def endAgentEntry (m : Metrics) (name : String) (d : EndAgentData) :
    AgentMetrics :=
  let existing := (lookupAgent m.agents name).getD freshAgentMetrics
  { status := if d.success then .success else .failed,
    attempts := existing.attempts ++ [attemptOf d],
    final_duration_ms :=
      if d.success then d.duration_ms else existing.final_duration_ms,
    total_cost_usd := existing.total_cost_usd + d.cost_usd,
    checkpoint := if d.success then d.checkpoint else existing.checkpoint,
    rolled_back_at := existing.rolled_back_at }

/-- Modelled from the spec: `endAgent(name, data)` stores the updated
agent entry and then recalculates the aggregates. -/
def endAgent (phaseOf : String → String) (m : Metrics) (name : String)
    (d : EndAgentData) : Metrics :=
  recalculateAggregations phaseOf
    { m with agents := setAgent m.agents name (endAgentEntry m name d) }

/-- Modelled from the spec: `markRolledBack(name)` transitions the agent
to rolled-back with a timestamp (keeping the first timestamp when one is
already present, so a repeated call changes nothing), recalculates the
aggregates, and is a no-op for an unknown agent rather than an error. -/
def markRolledBack (phaseOf : String → String) (m : Metrics) (name : String)
    (now : Nat) : Metrics :=
  match lookupAgent m.agents name with
  | none => m
  | some a =>
      let a1 : AgentMetrics :=
        { a with status := .rolledBack,
                 rolled_back_at := some (a.rolled_back_at.getD now) }
      recalculateAggregations phaseOf
        { m with agents := setAgent m.agents name a1 }

/-- Modelled from the spec: `markMultipleRolledBack(names)`. -/
def markMultipleRolledBack (phaseOf : String → String) (m : Metrics)
    (names : List String) (now : Nat) : Metrics :=
  names.foldl (fun acc n => markRolledBack phaseOf acc n now) m

/-- The tracker mutations the aggregate invariant quantifies over. -/
inductive TrackerOp where
  | endAgentOp (name : String) (d : EndAgentData)
  | rollbackOp (name : String) (now : Nat)
  | rollbackManyOp (names : List String) (now : Nat)

/-- Apply one tracker mutation. -/
def applyTrackerOp (phaseOf : String → String) (m : Metrics) :
    TrackerOp → Metrics
  | .endAgentOp n d => endAgent phaseOf m n d
  | .rollbackOp n t => markRolledBack phaseOf m n t
  | .rollbackManyOp ns t => markMultipleRolledBack phaseOf m ns t

/-- Replay a sequence of tracker mutations from a fresh document. -/
def replayTracker (phaseOf : String → String) (ops : List TrackerOp) :
    Metrics :=
  ops.foldl (applyTrackerOp phaseOf) initialMetrics

/-- Replay a sequence of `endAgent` calls from a fresh document. -/
def replayEndAgents (phaseOf : String → String)
    (ops : List (String × EndAgentData)) : Metrics :=
  ops.foldl (fun m p => endAgent phaseOf m p.1 p.2) initialMetrics

/-- Number of metrics entries stored under a given agent name. -/
def countKey (l : List (String × AgentMetrics)) (name : String) : Nat :=
  (l.filter (fun p => p.1 == name)).length

/-- Duration of the last successful attempt among a sequence of
`endAgent` payloads, or zero when none succeeded (the initial value of
`final_duration_ms`). -/
def lastSuccessDuration (l : List (String × EndAgentData)) : Nat :=
  ((l.filter (fun p => p.2.success)).getLast?).elim 0 (fun p => p.2.duration_ms)

/-! ## Concrete fixtures used by the witness statements -/

/-- A stored vulnerability currently in the fixed state. -/
def fxVuln : Vulnerability :=
  { id := "v1", hostname := "example.com", vuln_type := "xss",
    source := "user-input", path := "/search", sink_call := some "innerHTML",
    confidence := 80, remediation_status := "fixed", last_verified_at := 0 }

/-- A one-vulnerability exploit-memory store. -/
def fxDB : ExploitDB := { vulns := [fxVuln], history := [], nextHistoryId := 0 }

/-- A finding payload. -/
def fxVulnData1 : VulnData :=
  { hostname := "example.com", vuln_type := "sqli", source := "query-param",
    path := "/api/users", sink_call := some "db.query", confidence := 90,
    exploitation_data :=
      { description := some "first description", impact := some "high",
        remediation := some "sanitize input" } }

/-- The same finding rediscovered with different free-text data. -/
def fxVulnData2 : VulnData :=
  { fxVulnData1 with
    confidence := 40,
    exploitation_data :=
      { description := some "second description", impact := none,
        remediation := none } }

/-- A save-deliverable environment whose exploit-memory database open
fails while everything else succeeds. -/
def fxSaveEnv : SaveEnv :=
  { isQueue := true, isEvidence := false, queueValid := true,
    queueMessage := "", fileSave := .ok "/tmp/queue.json",
    hostname := some "example.com", parsedVulnCount := .ok 2,
    exploitMemoryEnabled := true, dbOpen := .error "database locked",
    vulnSaves := [], credentialExtract := .ok [] }

/-- A three-agent registry matching the one the session-manager tests
exercise. -/
def fxAgents : List AgentDef :=
  [{ name := "pre-recon", phase := "pre-reconnaissance", order := 1,
     prerequisites := [] },
   { name := "recon", phase := "reconnaissance", order := 2,
     prerequisites := ["pre-recon"] },
   { name := "injection-vuln", phase := "vulnerability-analysis", order := 3,
     prerequisites := ["recon"] }]

/-- A session with three completed, checkpointed agents. -/
def fxSession : Session :=
  { id := 0, webUrl := "https://example.com", repoPath := "/tmp/test-repo",
    targetRepo := "/tmp/test-repo", configFile := none,
    status := "in-progress",
    completedAgents := ["pre-recon", "recon", "injection-vuln"],
    failedAgents := [],
    checkpoints := [("pre-recon", "abc"), ("recon", "def"),
                    ("injection-vuln", "ghi")] }

/-- A store holding `fxSession`. -/
def fxStore : SessionStore := { sessions := [fxSession], nextId := 1 }

/-- A constant agent-to-phase assignment for the metrics witnesses. -/
def fxPhaseOf : String → String := fun _ => "pre-reconnaissance"

/-- The cost-aggregation scenario: three attempts of one agent costing
a tenth, three twentieths and a fifth of a dollar, of which only the
third succeeds. -/
def fxEndOps : List (String × EndAgentData) :=
  [("pre-recon",
    { attemptNumber := 1, duration_ms := 5000, cost_usd := 1/10,
      success := false, error := some "First attempt failed",
      checkpoint := none }),
   ("pre-recon",
    { attemptNumber := 2, duration_ms := 7000, cost_usd := 3/20,
      success := false, error := some "Second attempt failed",
      checkpoint := none }),
   ("pre-recon",
    { attemptNumber := 3, duration_ms := 9000, cost_usd := 1/5,
      success := true, error := none, checkpoint := some "abc123" })]

/-- A successful, not yet rolled-back agent entry. -/
def fxAgentM : AgentMetrics :=
  { status := .success,
    attempts := [{ attempt_number := 1, duration_ms := 10000,
                   cost_usd := 1/4, success := true, error := none }],
    final_duration_ms := 10000, total_cost_usd := 1/4,
    checkpoint := some "abc", rolled_back_at := none }

/-- A metrics document holding the single completed agent `fxAgentM`. -/
def fxMetrics : Metrics :=
  { agents := [("pre-recon", fxAgentM)], total_duration_ms := 10000,
    total_cost_usd := 1/4,
    phases := [("pre-reconnaissance",
      { duration_ms := 10000, cost_usd := 1/4, agent_count := 1 })] }

/-- A successful endAgent payload. -/
def fxEndSuccess : EndAgentData :=
  { attemptNumber := 1, duration_ms := 10000, cost_usd := 1/4,
    success := true, error := none, checkpoint := some "abc" }

/-- The aggregates of a metrics document are exactly the spec's
recomputation: totals and per-phase rollups sum final durations, costs
and counts over the agents whose current status is success, so failed
and rolled-back agents contribute zero. -/
def AggConsistent (phaseOf : String → String) (m : Metrics) : Prop :=
  m.total_duration_ms =
    ((successAgents m.agents).map (fun p => p.2.final_duration_ms)).sum
  ∧ m.total_cost_usd =
      ((successAgents m.agents).map (fun p => p.2.total_cost_usd)).sum
  ∧ ∀ ph agg, (ph, agg) ∈ m.phases →
      agg.duration_ms =
        (((successAgents m.agents).filter (fun p => phaseOf p.1 == ph)).map
          (fun p => p.2.final_duration_ms)).sum
      ∧ agg.cost_usd =
          (((successAgents m.agents).filter (fun p => phaseOf p.1 == ph)).map
            (fun p => p.2.total_cost_usd)).sum
      ∧ agg.agent_count =
          ((successAgents m.agents).filter (fun p => phaseOf p.1 == ph)).length

/-! ## Theorems -/

/-- The transition table of the code agrees with the state machine the
claim (and the spec) lists. -/
lemma transitionAllowed_iff (os ns : String) :
    transitionAllowed os ns = true ↔ ClaimedTransition os ns := by
  cases h : validTransitions os with
  | none =>
      unfold transitionAllowed
      rw [h]
      simp only [Bool.false_eq_true, false_iff]
      intro hc
      rcases hc with ⟨h1, _⟩ | ⟨h1, _⟩ | ⟨h1, _⟩ | ⟨h1, _⟩ | ⟨h1, _⟩ <;>
        (subst h1; simp [validTransitions] at h)
  | some l =>
      unfold transitionAllowed
      rw [h]
      unfold validTransitions at h
      split at h <;> simp_all [ClaimedTransition] <;>
        (subst h; simp; try tauto)

/-- Mapping a conditional update over a list commutes with searching for
the condition, provided the update preserves the condition. -/
lemma find?_map_cond_update {α : Type} (l : List α) (p : α → Bool)
    (g : α → α) (hpg : ∀ v, p (g v) = p v) :
    (l.map (fun v => if p v then g v else v)).find? p
      = (l.find? p).map g := by
  induction l with
  | nil => rfl
  | cons hd tl ih =>
      by_cases hp : p hd = true
      · have h1 : (if p hd = true then g hd else hd) = g hd := if_pos hp
        rw [List.map_cons, h1, List.find?_cons_of_pos _ (by rw [hpg]; exact hp),
          List.find?_cons_of_pos _ hp]
        rfl
      · have h1 : (if p hd = true then g hd else hd) = hd := if_neg hp
        rw [List.map_cons, h1, List.find?_cons_of_neg _ hp,
          List.find?_cons_of_neg _ hp, ih]

/-- Looking up a vulnerability after a status update returns the record
with the new status. -/
lemma find?_update_vulns (l : List Vulnerability) (vid ns : String)
    (now : Nat) :
    (l.map (fun v =>
        if v.id == vid then
          { v with remediation_status := ns, last_verified_at := now }
        else v)).find? (fun v => v.id == vid)
    = (l.find? (fun v => v.id == vid)).map (fun v =>
        { v with remediation_status := ns, last_verified_at := now }) :=
  find?_map_cond_update l (fun v => v.id == vid)
    (fun v => { v with remediation_status := ns, last_verified_at := now })
    (fun _ => rfl)

/-- C6: for every stored vulnerability and every requested new status,
the remediation-status update succeeds exactly when the transition is
listed in the state machine (open to fixed, false_positive or wont_fix;
fixed to verified or open; verified, false_positive and wont_fix back to
open); any other transition is rejected with a validation error and the
store, hence the remediation_status, is left unchanged. -/
theorem c6_remediation_status_state_machine
    (db : ExploitDB) (vid ns : String) (vm nts : Option String) (now : Nat)
    (v : Vulnerability) (hv : getVulnerability db vid = some v) :
    (transitionAllowed v.remediation_status ns = true ↔
      ClaimedTransition v.remediation_status ns)
    ∧ (ClaimedTransition v.remediation_status ns →
        ∃ hid db2,
          verifyRemediation db vid ns vm nts now =
            (.success v.remediation_status ns hid, db2) ∧
          ∀ v2, getVulnerability db2 vid = some v2 →
            v2.remediation_status = ns)
    ∧ (¬ ClaimedTransition v.remediation_status ns →
        verifyRemediation db vid ns vm nts now =
          (.validationError
            ("Invalid status transition from " ++ v.remediation_status ++
             " to " ++ ns), db)) := by
  refine ⟨transitionAllowed_iff _ _, ?_, ?_⟩
  · intro hc
    have ht : transitionAllowed v.remediation_status ns = true :=
      (transitionAllowed_iff _ _).mpr hc
    refine ⟨(updateVulnerabilityStatus db vid ns now).nextHistoryId,
      (recordRemediationHistory (updateVulnerabilityStatus db vid ns now)
        vid v.remediation_status ns vm nts).2, ?_, ?_⟩
    · unfold verifyRemediation
      rw [hv]
      simp [ht, recordRemediationHistory, updateVulnerabilityStatus]
    · intro v2 hv2
      have hvf : db.vulns.find? (fun w => w.id == vid) = some v := hv
      have hfind := find?_update_vulns db.vulns vid ns now
      unfold getVulnerability recordRemediationHistory
        updateVulnerabilityStatus at hv2
      simp only at hv2
      rw [hfind, hvf, Option.map_some'] at hv2
      injection hv2 with hv3
      rw [← hv3]
  · intro hc
    have ht : transitionAllowed v.remediation_status ns = false := by
      cases h : transitionAllowed v.remediation_status ns
      · rfl
      · exact absurd ((transitionAllowed_iff _ _).mp h) hc
    unfold verifyRemediation
    rw [hv]
    simp [ht]

/-- C6 witness: the fixed-state vulnerability of `fxDB` rejects a
transition to exploitation, leaving the store unchanged. -/
theorem c6_remediation_status_witness :
    verifyRemediation fxDB "v1" "exploitation" none none 7 =
      (.validationError
        "Invalid status transition from fixed to exploitation", fxDB) := by
  have h := c6_remediation_status_state_machine fxDB "v1" "exploitation"
    none none 7 fxVuln (by rfl)
  have h2 := h.2.2 (by simp only [ClaimedTransition]; decide)
  simpa [fxVuln] using h2

/-- C7: two finding payloads that agree on hostname, vuln_type, source,
path and sink_call receive the same identity hash under the strict
strategy, whatever their exploitation_data (or confidence). -/
theorem c7_identity_hash_strict (v1 v2 : VulnData)
    (hh : v1.hostname = v2.hostname) (ht : v1.vuln_type = v2.vuln_type)
    (hs : v1.source = v2.source) (hp : v1.path = v2.path)
    (hc : v1.sink_call = v2.sink_call) :
    generateIdentityHash v1 "strict" = generateIdentityHash v2 "strict" := by
  unfold generateIdentityHash
  rw [hh, ht, hs, hp, hc]

/-- C7 witness: the two concrete payloads differ in their
exploitation_data (and confidence) yet hash identically under strict. -/
theorem c7_identity_hash_witness :
    generateIdentityHash fxVulnData1 "strict" =
      generateIdentityHash fxVulnData2 "strict"
    ∧ fxVulnData1.exploitation_data ≠ fxVulnData2.exploitation_data :=
  ⟨c7_identity_hash_strict fxVulnData1 fxVulnData2 rfl rfl rfl rfl rfl,
   by decide⟩

/-- C1: evaluating the retry loop on attempts whose execution fails with
a returned result object shows the code_bug — `runClaudePrompt` returns
(never throws) execution errors, and the loop body has no branch for a
returned failure, so whether the failure is classified non-retryable or
retryable the loop performs no `rollbackGitWorkspace` call, consumes all
three attempts instead of propagating immediately, and finally executes
`throw lastError` with `lastError` still unassigned. -/
theorem c1_returned_failure_skips_rollback :
    (runClaudePromptWithRetry (fun _ => .resFail false)).rollbacks = []
    ∧ (runClaudePromptWithRetry (fun _ => .resFail false)).attemptsRun = 3
    ∧ (runClaudePromptWithRetry (fun _ => .resFail false)).outcome =
        .threwUndefined
    ∧ (runClaudePromptWithRetry (fun _ => .resFail true)).rollbacks = [] := by
  refine ⟨rfl, rfl, rfl, rfl⟩

/-- C10: the save_deliverable tool always resolves with a tool result
(success or error reply, never a thrown exception), and when the
exploit-memory store fails while the deliverable file write succeeded,
the failure is demoted to a warning, the file stays saved and the reply
status is success. -/
theorem c10_save_deliverable_never_throws (env : SaveEnv)
    (hq : env.isQueue = true) (hvq : env.queueValid = true)
    (fp : String) (hf : env.fileSave = .ok fp)
    (hn : env.hostname.isSome = true)
    (n : Nat) (hpc : env.parsedVulnCount = .ok n) (hpos : 0 < n)
    (he : env.exploitMemoryEnabled = true)
    (e : String) (hdb : env.dbOpen = .error e) :
    ((saveDeliverable env).reply.status = "success"
      ∧ (saveDeliverable env).fileSaved = true
      ∧ (saveDeliverable env).warnings ≠ [])
    ∧ (∀ env2 : SaveEnv,
        (saveDeliverable env2).reply.status = "success" ∨
        (saveDeliverable env2).reply.status = "error") := by
  constructor
  · obtain ⟨h, hh⟩ := Option.isSome_iff_exists.mp hn
    unfold saveDeliverable saveDeliverableBody
      saveVulnerabilitiesToExploitMemory
    rw [hq, hvq, hf, hh, hpc, hdb, he]
    simp [Except.bind, bind, pure, Except.pure, hpos]
  · intro env2
    unfold saveDeliverable saveDeliverableBody
    cases hcond : (env2.isQueue && !env2.queueValid) with
    | true => simp [hcond, pure, Except.pure]
    | false =>
        cases hfs : env2.fileSave with
        | error err => simp [hcond, hfs, pure, Except.pure, Except.bind, bind]
        | ok fp2 => simp [hcond, hfs, pure, Except.pure, Except.bind, bind]

/-- C10 witness: the concrete environment `fxSaveEnv` has a failing
database open yet yields a success reply with the file saved and a
warning recorded. -/
theorem c10_save_deliverable_witness :
    (saveDeliverable fxSaveEnv).reply.status = "success"
    ∧ (saveDeliverable fxSaveEnv).fileSaved = true
    ∧ (saveDeliverable fxSaveEnv).warnings ≠ [] :=
  (c10_save_deliverable_never_throws fxSaveEnv rfl rfl "/tmp/queue.json" rfl
    rfl 2 rfl (by decide) rfl "database locked" rfl).1

/-- Membership in a set-style insertion. -/
lemma mem_insertIfAbsent (l : List String) (x a : String) :
    a ∈ insertIfAbsent l x ↔ a ∈ l ∨ a = x := by
  unfold insertIfAbsent
  by_cases hx : x ∈ l
  · rw [if_pos (by simpa using hx)]
    constructor
    · exact Or.inl
    · rintro (h | rfl)
      · exact h
      · exact hx
  · rw [if_neg (by simpa using hx)]
    simp

/-- Membership after removing one name. -/
lemma mem_filter_ne (l : List String) (name a : String) :
    a ∈ l.filter (fun b => b != name) ↔ a ∈ l ∧ a ≠ name := by
  simp [List.mem_filter]

/-- Each of the two session mutations preserves the mutual-exclusion
invariant. -/
lemma applySessionOp_mutex (agents : List AgentDef) (s : Session)
    (op : SessionOp) (h : MutuallyExclusive s) :
    MutuallyExclusive (applySessionOp agents s op) := by
  cases op with
  | complete name cp =>
      intro a ha hf
      unfold applySessionOp completeAgentOnSession at ha hf
      simp only at ha hf
      rcases (mem_insertIfAbsent _ _ _).mp ha with hmem | rfl
      · exact h a hmem ((mem_filter_ne _ _ _).mp hf).1
      · exact ((mem_filter_ne _ _ _).mp hf).2 rfl
  | fail name =>
      intro a ha hf
      unfold applySessionOp failAgentOnSession at ha hf
      simp only at ha hf
      rcases (mem_insertIfAbsent _ _ _).mp hf with hmem | rfl
      · exact h a ((mem_filter_ne _ _ _).mp ha).1 hmem
      · exact ((mem_filter_ne _ _ _).mp ha).2 rfl

/-- Any sequence of the two mutations preserves mutual exclusion. -/
lemma applySessionOps_mutex (agents : List AgentDef) (ops : List SessionOp) :
    ∀ s : Session, MutuallyExclusive s →
      MutuallyExclusive (applySessionOps agents s ops) := by
  induction ops with
  | nil => intro s h; exact h
  | cons op rest ih =>
      intro s h
      exact ih (applySessionOp agents s op) (applySessionOp_mutex agents s op h)

/-- C5: markAgentCompleted adds the agent to completedAgents and removes
it from failedAgents, markAgentFailed does the reverse, and therefore no
sequence of these operations can put an agent in both sets at once. -/
theorem c5_completed_failed_mutual_exclusion (agents : List AgentDef)
    (s : Session) (ops : List SessionOp) (h : MutuallyExclusive s) :
    MutuallyExclusive (applySessionOps agents s ops)
    ∧ (∀ name cp,
        name ∈ (completeAgentOnSession agents name cp s).completedAgents
        ∧ name ∉ (completeAgentOnSession agents name cp s).failedAgents
        ∧ name ∈ (failAgentOnSession name s).failedAgents
        ∧ name ∉ (failAgentOnSession name s).completedAgents) := by
  refine ⟨applySessionOps_mutex agents ops s h, ?_⟩
  intro name cp
  refine ⟨?_, ?_, ?_, ?_⟩
  · exact (mem_insertIfAbsent _ _ _).mpr (Or.inr rfl)
  · intro hf
    exact ((mem_filter_ne _ _ _).mp hf).2 rfl
  · exact (mem_insertIfAbsent _ _ _).mpr (Or.inr rfl)
  · intro hf
    exact ((mem_filter_ne _ _ _).mp hf).2 rfl

/-- C5 witness: completing a previously failed agent moves it from the
failed set to the completed set, and the invariant holds after a mixed
sequence of operations on `fxSession`. -/
theorem c5_mutual_exclusion_witness :
    MutuallyExclusive
      (applySessionOps fxAgents fxSession
        [.fail "pre-recon", .complete "pre-recon" "abc123", .fail "recon"])
    ∧ "pre-recon" ∈
        (completeAgentOnSession fxAgents "pre-recon" "abc123"
          (failAgentOnSession "pre-recon" fxSession)).completedAgents
    ∧ "pre-recon" ∉
        (completeAgentOnSession fxAgents "pre-recon" "abc123"
          (failAgentOnSession "pre-recon" fxSession)).failedAgents := by
  have hinv : MutuallyExclusive fxSession := by
    intro a ha hf
    simp [fxSession] at hf
  have h := c5_completed_failed_mutual_exclusion fxAgents fxSession
    [.fail "pre-recon", .complete "pre-recon" "abc123", .fail "recon"] hinv
  have h2 := c5_completed_failed_mutual_exclusion fxAgents
    (failAgentOnSession "pre-recon" fxSession) []
    (applySessionOp_mutex fxAgents fxSession (.fail "pre-recon") hinv)
  exact ⟨h.1, (h2.2 "pre-recon" "abc123").1, (h2.2 "pre-recon" "abc123").2.1⟩

/-- Checkpoint lookup commutes with a key-based filter. -/
lemma lookupCheckpoint_filter (cps : List (String × String))
    (q : String → Bool) (a : String) :
    lookupCheckpoint (cps.filter (fun p => q p.1)) a =
      if q a then lookupCheckpoint cps a else none := by
  induction cps with
  | nil => cases hq : q a <;> simp [lookupCheckpoint, hq]
  | cons hd tl ih =>
      rw [List.filter_cons]
      by_cases hqh : q hd.1 = true
      · rw [if_pos hqh]
        unfold lookupCheckpoint
        by_cases hba : (hd.1 == a) = true
        · simp only [List.find?_cons, hba]
          have ha : hd.1 = a := by simpa using hba
          rw [← ha, hqh, if_pos rfl]
        · have hba2 : (hd.1 == a) = false := by simpa using hba
          simp only [List.find?_cons, hba2]
          exact ih
      · rw [if_neg hqh, ih]
        by_cases hqa : q a = true
        · rw [if_pos hqa, if_pos hqa]
          have hba2 : (hd.1 == a) = false := by
            by_contra hb
            have hcontra : hd.1 = a := by
              simpa using (Bool.not_eq_false _).mp hb
            rw [hcontra] at hqh
            exact hqh hqa
          unfold lookupCheckpoint
          simp only [List.find?_cons, hba2]
        · rw [if_neg hqa, if_neg hqa]

/-- C4: rollbackToAgent fails with a No checkpoint found error when the
target agent has no checkpoint entry; otherwise it keeps exactly the
completed agents whose order does not exceed the target's order,
removing the higher-order agents and deleting their checkpoint entries
while preserving the checkpoints of the kept agents. -/
theorem c4_rollback_to_agent (agents : List AgentDef) (store : SessionStore)
    (sid : Nat) (A : String) (s : Session)
    (hs : getSession store sid = some s) :
    (lookupCheckpoint s.checkpoints A = none →
      rollbackToAgent agents store sid A =
        .error ("No checkpoint found for agent " ++ A))
    ∧ (∀ cp oA, lookupCheckpoint s.checkpoints A = some cp →
        orderOf agents A = some oA →
        ∃ store1, rollbackToAgent agents store sid A =
            .ok (rollbackSessionTo agents oA s, store1)
          ∧ (∀ a o, orderOf agents a = some o →
              (a ∈ (rollbackSessionTo agents oA s).completedAgents ↔
                a ∈ s.completedAgents ∧ o ≤ oA))
          ∧ (∀ a o, orderOf agents a = some o → oA < o →
              lookupCheckpoint
                (rollbackSessionTo agents oA s).checkpoints a = none)
          ∧ (∀ a o, orderOf agents a = some o → o ≤ oA →
              lookupCheckpoint
                (rollbackSessionTo agents oA s).checkpoints a =
                lookupCheckpoint s.checkpoints a)) := by
  constructor
  · intro hnone
    simp only [rollbackToAgent, hs, hnone]
  · intro cp oA hcp ho
    refine ⟨{ store with
        sessions := store.sessions.map (fun t =>
          if t.id == sid then rollbackSessionTo agents oA t else t) },
      ?_, ?_, ?_, ?_⟩
    · simp only [rollbackToAgent, updateSessionWith, hs, hcp, ho]
    · intro a o hoa
      unfold rollbackSessionTo
      simp only [List.mem_filter, keepUpTo, hoa]
      simp
    · intro a o hoa hlt
      unfold rollbackSessionTo
      simp only
      rw [lookupCheckpoint_filter]
      have hk : keepUpTo agents oA a = false := by
        simp only [keepUpTo, hoa]
        simp [Nat.not_le_of_lt hlt]
      rw [hk]
      rfl
    · intro a o hoa hle
      unfold rollbackSessionTo
      simp only
      rw [lookupCheckpoint_filter]
      have hk : keepUpTo agents oA a = true := by
        simp only [keepUpTo, hoa]
        simpa using hle
      rw [hk]
      rfl

/-- C4 witness: on the three-agent fixture, rolling the session back to
recon keeps pre-recon and recon with their checkpoints, removes
injection-vuln and its checkpoint, and asking for a rollback to the
checkpoint-less report agent yields the No checkpoint found error. -/
theorem c4_rollback_witness :
    (rollbackToAgent fxAgents fxStore 0 "report" =
      .error ("No checkpoint found for agent report")
      ∧ "No checkpoint found for agent report" =
          "No checkpoint found" ++ " for agent report")
    ∧ ∃ store1, rollbackToAgent fxAgents fxStore 0 "recon" =
        .ok (rollbackSessionTo fxAgents 2 fxSession, store1)
        ∧ ("recon" ∈ (rollbackSessionTo fxAgents 2 fxSession).completedAgents
            ↔ "recon" ∈ fxSession.completedAgents ∧ 2 ≤ 2)
        ∧ lookupCheckpoint
            (rollbackSessionTo fxAgents 2 fxSession).checkpoints
            "injection-vuln" = none := by
  have h := c4_rollback_to_agent fxAgents fxStore 0 "report" fxSession rfl
  have h2 := c4_rollback_to_agent fxAgents fxStore 0 "recon" fxSession rfl
  obtain ⟨store1, hok, hmem, hgone, _⟩ :=
    h2.2 "def" 2 (by decide) (by decide)
  refine ⟨⟨h.1 (by decide), rfl⟩, store1, hok, hmem "recon" 2 (by decide),
    hgone "injection-vuln" 3 (by decide) (by decide)⟩

/-- After marking a session completed, a fresh createSession for the
same pair cannot return that session's id: any reused session is still
in-progress, and a newly created one receives an id above the bound. -/
lemma update_then_create_ne (st : SessionStore) (u r : String)
    (cf tr : Option String) (sid : Nat) (hsid : sid < st.nextId)
    (s2 : Session) (store2 : SessionStore)
    (hupd : updateSessionStatus st sid "completed" = .ok (s2, store2)) :
    (createSession store2 u r cf tr).1.id ≠ sid := by
  unfold updateSessionStatus updateSessionWith at hupd
  cases hg : getSession st sid with
  | none =>
      rw [hg] at hupd
      exact Except.noConfusion hupd
  | some solds =>
      rw [hg] at hupd
      injection hupd with hpair
      rw [Prod.mk.injEq] at hpair
      obtain ⟨h1, h2⟩ := hpair
      subst h2
      cases hf2 : (st.sessions.map (fun t =>
          if t.id == sid then { t with status := "completed" } else t)).find?
            (fun s => s.webUrl == u && s.repoPath == r &&
              s.status == "in-progress") with
      | some s3 =>
          simp only [createSession, hf2]
          have hpred := List.find?_some hf2
          have hmem := List.mem_of_find?_eq_some hf2
          obtain ⟨t, htmem, hteq⟩ := List.mem_map.mp hmem
          by_cases hid : (t.id == sid) = true
          · rw [if_pos hid] at hteq
            rw [← hteq] at hpred
            simp at hpred
          · rw [if_neg hid] at hteq
            subst hteq
            intro heq
            exact hid (by simp [heq])
      | none =>
          simp only [createSession, hf2]
          exact (Nat.ne_of_lt hsid).symm

/-- C8: createSession is keyed on the (webUrl, repoPath) pair — while a
matching in-progress session exists, repeated calls return the same id
(and a first creation starts with empty completed and failed sets and
empty checkpoints and status in-progress); once that session's status is
set to completed, a further createSession returns a different id. -/
theorem c8_create_session_keyed_on_pair (store : SessionStore)
    (u r : String) (cf tr : Option String) (hb : IdsBounded store) :
    ((createSession (createSession store u r cf tr).2 u r cf tr).1.id =
        (createSession store u r cf tr).1.id)
    ∧ (createSession store u r cf tr).1.status = "in-progress"
    ∧ (store.sessions.find? (fun s =>
          s.webUrl == u && s.repoPath == r && s.status == "in-progress")
            = none →
        (createSession store u r cf tr).1.completedAgents = []
        ∧ (createSession store u r cf tr).1.failedAgents = []
        ∧ (createSession store u r cf tr).1.checkpoints = [])
    ∧ (∀ s2 store2,
        updateSessionStatus (createSession store u r cf tr).2
          (createSession store u r cf tr).1.id "completed" = .ok (s2, store2) →
        (createSession store2 u r cf tr).1.id ≠
          (createSession store u r cf tr).1.id) := by
  cases hf : store.sessions.find? (fun s =>
      s.webUrl == u && s.repoPath == r && s.status == "in-progress") with
  | some s0 =>
      have hpred := List.find?_some hf
      have hmem := List.mem_of_find?_eq_some hf
      simp only [Bool.and_eq_true, beq_iff_eq] at hpred
      refine ⟨?_, ?_, ?_, ?_⟩
      · simp only [createSession, hf]
      · simp only [createSession, hf]
        exact hpred.2
      · intro hnone
        exact Option.noConfusion hnone
      · intro s2 store2 hupd
        simp only [createSession, hf] at hupd ⊢
        exact update_then_create_ne store u r cf tr s0.id (hb s0 hmem)
          s2 store2 hupd
  | none =>
      refine ⟨?_, ?_, ?_, ?_⟩
      · simp [createSession, hf, List.find?_append]
      · simp [createSession, hf]
      · intro _
        simp [createSession, hf]
      · intro s2 store2 hupd
        simp only [createSession, hf] at hupd ⊢
        refine update_then_create_ne _ u r cf tr store.nextId ?_ s2 store2 hupd
        exact Nat.lt_succ_self store.nextId

/-- C8 witness: from an empty store, the first two createSession calls
for the pair return id 0 with empty sets; after marking that session
completed, the next createSession returns a different id. -/
theorem c8_create_session_witness :
    ((createSession
        (createSession { sessions := [], nextId := 0 }
          "https://example.com" "/tmp/test-repo" none none).2
        "https://example.com" "/tmp/test-repo" none none).1.id =
      (createSession { sessions := [], nextId := 0 }
        "https://example.com" "/tmp/test-repo" none none).1.id)
    ∧ (createSession { sessions := [], nextId := 0 }
        "https://example.com" "/tmp/test-repo" none none).1.completedAgents = []
    ∧ ∀ s2 store2,
        updateSessionStatus
          (createSession { sessions := [], nextId := 0 }
            "https://example.com" "/tmp/test-repo" none none).2
          (createSession { sessions := [], nextId := 0 }
            "https://example.com" "/tmp/test-repo" none none).1.id
          "completed" = .ok (s2, store2) →
        (createSession store2 "https://example.com" "/tmp/test-repo"
          none none).1.id ≠
          (createSession { sessions := [], nextId := 0 }
            "https://example.com" "/tmp/test-repo" none none).1.id := by
  have h := c8_create_session_keyed_on_pair { sessions := [], nextId := 0 }
    "https://example.com" "/tmp/test-repo" none none
    (by intro s hsmem; cases hsmem)
  exact ⟨h.1, (h.2.2.1 rfl).1, h.2.2.2⟩

/-- Setting an agent entry makes it the one the lookup returns. -/
lemma lookupAgent_setAgent_self (l : List (String × AgentMetrics))
    (n : String) (a : AgentMetrics) :
    lookupAgent (setAgent l n a) n = some a := by
  unfold setAgent
  by_cases hp : (l.find? (fun p => p.1 == n)).isSome = true
  · rw [if_pos hp]
    unfold lookupAgent
    rw [find?_map_cond_update l (fun p => p.1 == n) (fun p => (p.1, a))
      (fun _ => rfl)]
    obtain ⟨q, hq⟩ := Option.isSome_iff_exists.mp hp
    rw [hq]
    rfl
  · rw [if_neg hp]
    unfold lookupAgent
    rw [List.find?_append]
    have hnone : l.find? (fun p => p.1 == n) = none := by
      cases hfind : l.find? (fun p => p.1 == n)
      · rfl
      · rw [hfind] at hp
        exact absurd rfl hp
    rw [hnone]
    simp

/-- The two branches of `setAgent`, as rewrite equations. -/
lemma setAgent_present (l : List (String × AgentMetrics)) (n : String)
    (a : AgentMetrics) (hp : (l.find? (fun p => p.1 == n)).isSome = true) :
    setAgent l n a = l.map (fun p => if p.1 == n then (p.1, a) else p) := by
  unfold setAgent; rw [if_pos hp]

/-- A fresh agent entry is appended. -/
lemma setAgent_absent (l : List (String × AgentMetrics)) (n : String)
    (a : AgentMetrics)
    (hp : ¬ (l.find? (fun p => p.1 == n)).isSome = true) :
    setAgent l n a = l ++ [(n, a)] := by
  unfold setAgent; rw [if_neg hp]

/-- Replacing the value stored under one key does not affect searches
for a different key. -/
lemma find?_map_keyfix_other (l : List (String × AgentMetrics))
    (n : String) (a : AgentMetrics) (x : String) (hxn : ¬ x = n) :
    (l.map (fun p => if p.1 == n then (p.1, a) else p)).find?
        (fun p => p.1 == x) = l.find? (fun p => p.1 == x) := by
  induction l with
  | nil => rfl
  | cons hd tl ih =>
      rw [List.map_cons]
      by_cases hhx : (hd.1 == x) = true
      · have hhd : hd.1 = x := by simpa using hhx
        have hhn : (hd.1 == n) = false := by simp [hhd, hxn]
        rw [if_neg (by simp [hhn])]
        simp only [List.find?_cons, hhx]
      · have hhx2 : (hd.1 == x) = false := by simpa using hhx
        have hkey : ((if hd.1 == n then (hd.1, a) else hd).1 == x)
            = (hd.1 == x) := by
          split <;> rfl
        simp only [List.find?_cons, hkey, hhx2]
        exact ih

/-- Setting one agent's entry leaves every other lookup unchanged. -/
lemma lookupAgent_setAgent_other (l : List (String × AgentMetrics))
    (n : String) (a : AgentMetrics) (x : String) (hx : (x == n) = false) :
    lookupAgent (setAgent l n a) x = lookupAgent l x := by
  have hxn : ¬ x = n := by simpa using hx
  by_cases hp : (l.find? (fun p => p.1 == n)).isSome = true
  · rw [setAgent_present l n a hp]
    unfold lookupAgent
    rw [find?_map_keyfix_other l n a x hxn]
  · rw [setAgent_absent l n a hp]
    unfold lookupAgent
    rw [List.find?_append]
    have h2 : ([(n, a)].find? (fun p => p.1 == x)) = none := by
      simp only [List.find?_cons, List.find?_nil]
      have hnx : (n == x) = false := by
        simp only [beq_eq_false_iff_ne]
        exact fun h => hxn h.symm
      rw [hnx]
    rw [h2]
    cases l.find? (fun p => p.1 == x) <;> rfl

/-- Setting the same key twice is the same as setting it once with the
final value. -/
lemma setAgent_setAgent (l : List (String × AgentMetrics)) (n : String)
    (a b : AgentMetrics) :
    setAgent (setAgent l n a) n b = setAgent l n b := by
  have hfind : (l.map (fun p => if p.1 == n then (p.1, a) else p)).find?
      (fun p => p.1 == n) = (l.find? (fun p => p.1 == n)).map
        (fun p => (p.1, a)) :=
    find?_map_cond_update l (fun p => p.1 == n) (fun p => (p.1, a))
      (fun _ => rfl)
  by_cases hp : (l.find? (fun p => p.1 == n)).isSome = true
  · have hp2 : ((l.map (fun p => if p.1 == n then (p.1, a) else p)).find?
        (fun p => p.1 == n)).isSome = true := by
      rw [hfind]
      obtain ⟨q, hq⟩ := Option.isSome_iff_exists.mp hp
      rw [hq]
      rfl
    rw [setAgent_present l n a hp, setAgent_present _ n b hp2,
      setAgent_present l n b hp, List.map_map]
    apply List.map_congr_left
    intro p _
    by_cases hpn : (p.1 == n) = true
    · simp [Function.comp, hpn]
    · have hpn2 : (p.1 == n) = false := by simpa using hpn
      simp [Function.comp, hpn2]
  · have hnone : l.find? (fun p => p.1 == n) = none := by
      cases hfind2 : l.find? (fun p => p.1 == n)
      · rfl
      · rw [hfind2] at hp; exact absurd rfl hp
    have hp2 : ((l ++ [(n, a)]).find? (fun p => p.1 == n)).isSome = true := by
      rw [List.find?_append, hnone]
      simp
    rw [setAgent_absent l n a hp, setAgent_present _ n b hp2,
      setAgent_absent l n b hp, List.map_append]
    have h3 : l.map (fun p => if p.1 == n then (p.1, b) else p) = l := by
      conv_rhs => rw [← List.map_id l]
      apply List.map_congr_left
      intro p hpmem
      have hnp := List.find?_eq_none.mp hnone p hpmem
      rw [if_neg hnp]
      rfl
    have h4 : [((n : String), a)].map
        (fun p => if p.1 == n then (p.1, b) else p) = [(n, b)] := by
      simp
    rw [h3, h4]

/-- Replacing an agent's value does not change how many entries any key
has. -/
lemma countKey_map_keyfix (l : List (String × AgentMetrics)) (n x : String)
    (a : AgentMetrics) :
    countKey (l.map (fun p => if p.1 == n then (p.1, a) else p)) x =
      countKey l x := by
  induction l with
  | nil => rfl
  | cons hd tl ih =>
      unfold countKey at ih ⊢
      rw [List.map_cons, List.filter_cons, List.filter_cons]
      have hk : ((if hd.1 == n then (hd.1, a) else hd).1 == x)
          = (hd.1 == x) := by
        split <;> rfl
      rw [hk]
      cases hx : (hd.1 == x)
      · rw [if_neg Bool.false_ne_true, if_neg Bool.false_ne_true]
        exact ih
      · rw [if_pos rfl, if_pos rfl]
        simp only [List.length_cons, ih]

/-- Recalculating aggregates keeps the agents map. -/
lemma recalc_agents (phaseOf : String → String) (m : Metrics) :
    (recalculateAggregations phaseOf m).agents = m.agents := rfl

/-- Recalculating is idempotent. -/
lemma recalc_idem (phaseOf : String → String) (m : Metrics) :
    recalculateAggregations phaseOf (recalculateAggregations phaseOf m) =
      recalculateAggregations phaseOf m := rfl

/-- The output of the aggregate recomputation satisfies the aggregate
consistency predicate. -/
lemma recalc_consistent (phaseOf : String → String) (m : Metrics) :
    AggConsistent phaseOf (recalculateAggregations phaseOf m) := by
  refine ⟨rfl, rfl, ?_⟩
  intro ph agg hmem
  unfold recalculateAggregations at hmem
  simp only at hmem
  obtain ⟨ph0, hph0, heq⟩ := List.mem_map.mp hmem
  rw [Prod.mk.injEq] at heq
  obtain ⟨h1, h2⟩ := heq
  subst h1
  subst h2
  exact ⟨rfl, rfl, rfl⟩

/-- C9: rolling back the same completed agent twice (the serialized
outcome of two concurrent markMultipleRolledBack calls) is idempotent —
the second call changes nothing, the agent ends with status rolled-back,
a single rolled_back_at timestamp (the first one), exactly one metrics
entry, and no error is raised (the operations are total functions). -/
theorem c9_rolled_back_idempotent (phaseOf : String → String) (m : Metrics)
    (A : String) (t1 t2 : Nat) (a : AgentMetrics)
    (ha : lookupAgent m.agents A = some a) (_hst : a.status = .success)
    (hrb : a.rolled_back_at = none) (hcount : countKey m.agents A = 1) :
    ∃ a2, lookupAgent (markMultipleRolledBack phaseOf
        (markMultipleRolledBack phaseOf m [A] t1) [A] t2).agents A = some a2
      ∧ a2.status = .rolledBack
      ∧ a2.rolled_back_at = some t1
      ∧ countKey (markMultipleRolledBack phaseOf
          (markMultipleRolledBack phaseOf m [A] t1) [A] t2).agents A = 1
      ∧ markMultipleRolledBack phaseOf
          (markMultipleRolledBack phaseOf m [A] t1) [A] t2 =
          markMultipleRolledBack phaseOf m [A] t1 := by
  have hsingle : ∀ (mm : Metrics) (t : Nat),
      markMultipleRolledBack phaseOf mm [A] t = markRolledBack phaseOf mm A t :=
    fun _ _ => rfl
  have hpres : (m.agents.find? (fun p => p.1 == A)).isSome = true := by
    unfold lookupAgent at ha
    cases hf : m.agents.find? (fun p => p.1 == A)
    · rw [hf] at ha; exact Option.noConfusion ha
    · rfl
  have hm1 : markRolledBack phaseOf m A t1 =
      recalculateAggregations phaseOf { m with agents := setAgent m.agents A ({ a with status := .rolledBack, rolled_back_at := some t1 }) } := by
    simp only [markRolledBack, ha, hrb, Option.getD_none]
  have hag1 : (markRolledBack phaseOf m A t1).agents =
      setAgent m.agents A ({ a with status := .rolledBack, rolled_back_at := some t1 }) := by
    rw [hm1]
    rfl
  have hl1 : lookupAgent (markRolledBack phaseOf m A t1).agents A =
      some { a with status := .rolledBack, rolled_back_at := some t1 } := by
    rw [hag1]
    exact lookupAgent_setAgent_self _ _ _
  have hm2 : markRolledBack phaseOf (markRolledBack phaseOf m A t1) A t2 =
      markRolledBack phaseOf m A t1 := by
    generalize hM : markRolledBack phaseOf m A t1 = M at hl1 hag1 hm1
    simp only [markRolledBack, hl1, Option.getD_some]
    rw [hag1, setAgent_setAgent, ← hag1]
    have hEta : ({ M with agents := M.agents } : Metrics) = M := rfl
    rw [hEta, hm1]
    exact recalc_idem phaseOf _
  refine ⟨{ a with status := .rolledBack, rolled_back_at := some t1 },
    ?_, rfl, rfl, ?_, ?_⟩
  · rw [hsingle, hsingle, hm2]
    exact hl1
  · rw [hsingle, hsingle, hm2, hag1,
      setAgent_present m.agents A _ hpres, countKey_map_keyfix]
    exact hcount
  · rw [hsingle, hsingle, hm2]

/-- C9 witness: rolling back the completed agent of `fxMetrics` twice
with different timestamps leaves status rolled-back, the first
timestamp, and a single entry. -/
theorem c9_rolled_back_witness :
    ∃ a2, lookupAgent (markMultipleRolledBack fxPhaseOf
        (markMultipleRolledBack fxPhaseOf fxMetrics ["pre-recon"] 5)
        ["pre-recon"] 9).agents "pre-recon" = some a2
      ∧ a2.status = .rolledBack
      ∧ a2.rolled_back_at = some 5
      ∧ countKey (markMultipleRolledBack fxPhaseOf
          (markMultipleRolledBack fxPhaseOf fxMetrics ["pre-recon"] 5)
          ["pre-recon"] 9).agents "pre-recon" = 1 := by
  obtain ⟨a2, h1, h2, h3, h4, _⟩ := c9_rolled_back_idempotent fxPhaseOf
    fxMetrics "pre-recon" 5 9 fxAgentM rfl rfl rfl rfl
  exact ⟨a2, h1, h2, h3, h4⟩

/-- markRolledBack preserves aggregate consistency. -/
lemma markRolledBack_consistent (phaseOf : String → String) (m : Metrics)
    (name : String) (t : Nat) (h : AggConsistent phaseOf m) :
    AggConsistent phaseOf (markRolledBack phaseOf m name t) := by
  cases hl : lookupAgent m.agents name with
  | none => simp only [markRolledBack, hl]; exact h
  | some a =>
      simp only [markRolledBack, hl]
      exact recalc_consistent phaseOf _

/-- markMultipleRolledBack preserves aggregate consistency. -/
lemma markMultipleRolledBack_consistent (phaseOf : String → String)
    (names : List String) :
    ∀ (m : Metrics) (t : Nat), AggConsistent phaseOf m →
      AggConsistent phaseOf (markMultipleRolledBack phaseOf m names t) := by
  induction names with
  | nil => intro m t h; exact h
  | cons n rest ih =>
      intro m t h
      exact ih (markRolledBack phaseOf m n t) t
        (markRolledBack_consistent phaseOf m n t h)

/-- Every tracker mutation leaves the aggregates consistent. -/
lemma applyTrackerOp_consistent (phaseOf : String → String) (m : Metrics)
    (op : TrackerOp) (h : AggConsistent phaseOf m) :
    AggConsistent phaseOf (applyTrackerOp phaseOf m op) := by
  cases op with
  | endAgentOp n d => exact recalc_consistent phaseOf _
  | rollbackOp n t => exact markRolledBack_consistent phaseOf m n t h
  | rollbackManyOp ns t => exact markMultipleRolledBack_consistent phaseOf ns m t h

/-- Replaying any operation sequence from a fresh document keeps the
aggregates consistent. -/
lemma replayTracker_consistent (phaseOf : String → String)
    (ops : List TrackerOp) :
    AggConsistent phaseOf (replayTracker phaseOf ops) := by
  have hgen : ∀ (l : List TrackerOp) (m : Metrics), AggConsistent phaseOf m →
      AggConsistent phaseOf (l.foldl (applyTrackerOp phaseOf) m) := by
    intro l
    induction l with
    | nil => intro m h; exact h
    | cons op rest ih =>
        intro m h
        exact ih _ (applyTrackerOp_consistent phaseOf m op h)
  refine hgen ops initialMetrics ⟨rfl, rfl, ?_⟩
  intro ph agg hmem
  cases hmem

/-- markRolledBack never touches any agent's attempt history. -/
lemma markRolledBack_attempts (phaseOf : String → String) (m : Metrics)
    (name : String) (t : Nat) (x : String) :
    (lookupAgent (markRolledBack phaseOf m name t).agents x).map
        (fun aa => aa.attempts)
      = (lookupAgent m.agents x).map (fun aa => aa.attempts) := by
  cases hl : lookupAgent m.agents name with
  | none => simp only [markRolledBack, hl]
  | some a =>
      simp only [markRolledBack, hl, recalc_agents]
      by_cases hx : (x == name) = true
      · have hxe : x = name := by simpa using hx
        subst hxe
        rw [lookupAgent_setAgent_self, hl]
        rfl
      · have hx2 : (x == name) = false := by simpa using hx
        rw [lookupAgent_setAgent_other _ _ _ _ hx2]

/-- markMultipleRolledBack never touches any agent's attempt history. -/
lemma markMultipleRolledBack_attempts (phaseOf : String → String)
    (names : List String) :
    ∀ (m : Metrics) (t : Nat) (x : String),
      (lookupAgent (markMultipleRolledBack phaseOf m names t).agents x).map
          (fun aa => aa.attempts)
        = (lookupAgent m.agents x).map (fun aa => aa.attempts) := by
  induction names with
  | nil => intro m t x; rfl
  | cons n rest ih =>
      intro m t x
      calc (lookupAgent (markMultipleRolledBack phaseOf
              (markRolledBack phaseOf m n t) rest t).agents x).map
            (fun aa => aa.attempts)
          = (lookupAgent (markRolledBack phaseOf m n t).agents x).map
              (fun aa => aa.attempts) := ih _ t x
        _ = (lookupAgent m.agents x).map (fun aa => aa.attempts) :=
            markRolledBack_attempts phaseOf m n t x

/-- C3: after any sequence of endAgent, markRolledBack and
markMultipleRolledBack operations, the top-level and per-phase
aggregates equal the recomputation over agents whose current status is
success (so failed and rolled-back agents contribute zero), while the
rollback operations leave every agent's attempt list unchanged. -/
theorem c3_aggregates_recomputed_from_success (phaseOf : String → String)
    (ops : List TrackerOp) :
    AggConsistent phaseOf (replayTracker phaseOf ops)
    ∧ (∀ name a,
        lookupAgent (replayTracker phaseOf ops).agents name = some a →
        a.status ≠ .success →
        (name, a) ∉ successAgents (replayTracker phaseOf ops).agents)
    ∧ (∀ (m : Metrics) (names : List String) (t : Nat) (x : String),
        (lookupAgent (markMultipleRolledBack phaseOf m names t).agents x).map
            (fun aa => aa.attempts)
          = (lookupAgent m.agents x).map (fun aa => aa.attempts)) := by
  refine ⟨replayTracker_consistent phaseOf ops, ?_, ?_⟩
  · intro name a _ hstatus hmem
    unfold successAgents at hmem
    have := (List.mem_filter.mp hmem).2
    simp only [beq_iff_eq] at this
    exact hstatus this
  · intro m names t x
    exact markMultipleRolledBack_attempts phaseOf names m t x

/-- C3 witness: completing an agent and then rolling it back leaves the
totals at zero while its attempt history survives; rolling back the
completed agent of `fxMetrics` keeps its single recorded attempt. -/
theorem c3_aggregates_witness :
    (replayTracker fxPhaseOf
        [.endAgentOp "pre-recon" fxEndSuccess,
         .rollbackOp "pre-recon" 5]).total_cost_usd = 0
    ∧ (replayTracker fxPhaseOf
        [.endAgentOp "pre-recon" fxEndSuccess,
         .rollbackOp "pre-recon" 5]).total_duration_ms = 0
    ∧ (lookupAgent (markMultipleRolledBack fxPhaseOf fxMetrics
          ["pre-recon"] 5).agents "pre-recon").map (fun aa => aa.attempts)
        = some fxAgentM.attempts := by
  have h := c3_aggregates_recomputed_from_success fxPhaseOf
    [.endAgentOp "pre-recon" fxEndSuccess, .rollbackOp "pre-recon" 5]
  refine ⟨?_, ?_, ?_⟩
  · rw [h.1.2.1]
    decide
  · rw [h.1.1]
    decide
  · rw [h.2.2 fxMetrics ["pre-recon"] 5 "pre-recon"]
    rfl

/-- Replaying a sequence of endAgent calls gives each agent exactly the
attempt list, accumulated cost and last-success duration of its own
calls. -/
lemma replay_agent_view (phaseOf : String → String)
    (ops : List (String × EndAgentData)) (A : String) :
    (lookupAgent (replayEndAgents phaseOf ops).agents A).map
        (fun a => (a.attempts, a.total_cost_usd, a.final_duration_ms))
    = if (ops.filter (fun p => p.1 == A)) = [] then none
      else some
        ((ops.filter (fun p => p.1 == A)).map (fun p => attemptOf p.2),
         ((ops.filter (fun p => p.1 == A)).map (fun p => p.2.cost_usd)).sum,
         lastSuccessDuration (ops.filter (fun p => p.1 == A))) := by
  induction ops using List.reverseRecOn with
  | nil => simp [replayEndAgents, initialMetrics, lookupAgent]
  | append_singleton l q ih =>
      have hsnoc : replayEndAgents phaseOf (l ++ [q]) =
          endAgent phaseOf (replayEndAgents phaseOf l) q.1 q.2 := by
        unfold replayEndAgents
        rw [List.foldl_append]
        rfl
      rw [hsnoc]
      have hagents : (endAgent phaseOf (replayEndAgents phaseOf l) q.1
          q.2).agents = setAgent (replayEndAgents phaseOf l).agents q.1
            (endAgentEntry (replayEndAgents phaseOf l) q.1 q.2) := rfl
      by_cases hq : (q.1 == A) = true
      · have hqe : q.1 = A := by simpa using hq
        subst hqe
        have hfilter : (l ++ [q]).filter (fun p => p.1 == q.1) =
            l.filter (fun p => p.1 == q.1) ++ [q] := by
          rw [List.filter_append]
          simp [hq]
        rw [hfilter, if_neg (by simp)]
        have hlook : lookupAgent (endAgent phaseOf
            (replayEndAgents phaseOf l) q.1 q.2).agents q.1 =
            some (endAgentEntry (replayEndAgents phaseOf l) q.1 q.2) := by
          rw [hagents]
          exact lookupAgent_setAgent_self _ _ _
        rw [hlook]
        by_cases hempty : l.filter (fun p => p.1 == q.1) = []
        · have hnone : lookupAgent (replayEndAgents phaseOf l).agents q.1
              = none := by
            rw [hempty, if_pos rfl] at ih
            exact Option.map_eq_none'.mp ih
          rw [hempty]
          simp only [Option.map_some', endAgentEntry, hnone,
            Option.getD_none, freshAgentMetrics, List.nil_append,
            List.map_cons, List.map_nil, List.sum_cons, List.sum_nil]
          refine congrArg some ?_
          rw [Prod.mk.injEq, Prod.mk.injEq]
          refine ⟨rfl, by ring_nf, ?_⟩
          unfold lastSuccessDuration
          cases hsq : q.2.success <;>
            simp [List.filter_cons, List.filter_nil, hsq]
        · rw [if_neg hempty] at ih
          obtain ⟨a0, ha0, hproj⟩ := Option.map_eq_some'.mp ih
          rw [Prod.mk.injEq, Prod.mk.injEq] at hproj
          obtain ⟨hatt, hcost, hfin⟩ := hproj
          simp only [Option.map_some', endAgentEntry, ha0, Option.getD_some]
          refine congrArg some ?_
          rw [Prod.mk.injEq, Prod.mk.injEq]
          refine ⟨by rw [hatt, List.map_append]; rfl, ?_, ?_⟩
          · rw [hcost, List.map_append, List.sum_append]
            simp
          · unfold lastSuccessDuration
            rw [List.filter_append]
            cases hsq : q.2.success
            · rw [if_neg Bool.false_ne_true]
              have hfq : List.filter (fun p => p.2.success) [q] = [] := by
                simp [List.filter_cons, hsq]
              rw [hfq, List.append_nil]
              exact hfin
            · rw [if_pos rfl]
              have hfq : List.filter (fun p => p.2.success) [q] = [q] := by
                simp [List.filter_cons, hsq]
              rw [hfq, List.getLast?_concat]
              rfl
      · have hq2 : (q.1 == A) = false := by simpa using hq
        have hAq : (A == q.1) = false := by
          simp only [beq_eq_false_iff_ne] at hq2 ⊢
          exact fun h => hq2 h.symm
        have hfilter : (l ++ [q]).filter (fun p => p.1 == A) =
            l.filter (fun p => p.1 == A) := by
          rw [List.filter_append]
          simp [hq2]
        have hlook : lookupAgent (endAgent phaseOf
            (replayEndAgents phaseOf l) q.1 q.2).agents A =
            lookupAgent (replayEndAgents phaseOf l).agents A := by
          rw [hagents]
          exact lookupAgent_setAgent_other _ _ _ _ hAq
        rw [hfilter, hlook]
        exact ih

/-- C2: for every agent and every sequence of endAgent calls, the
agent's total_cost_usd is the sum of cost_usd over all of its recorded
attempts, successful or not, and final_duration_ms is the duration of
its last successful attempt. -/
theorem c2_total_cost_over_all_attempts (phaseOf : String → String)
    (ops : List (String × EndAgentData)) (A : String)
    (h : ops.filter (fun p => p.1 == A) ≠ []) :
    ∃ a, lookupAgent (replayEndAgents phaseOf ops).agents A = some a
      ∧ a.attempts = (ops.filter (fun p => p.1 == A)).map
          (fun p => attemptOf p.2)
      ∧ a.total_cost_usd = ((ops.filter (fun p => p.1 == A)).map
          (fun p => p.2.cost_usd)).sum
      ∧ a.final_duration_ms =
          lastSuccessDuration (ops.filter (fun p => p.1 == A)) := by
  have hview := replay_agent_view phaseOf ops A
  rw [if_neg h] at hview
  obtain ⟨a, ha, hproj⟩ := Option.map_eq_some'.mp hview
  rw [Prod.mk.injEq, Prod.mk.injEq] at hproj
  exact ⟨a, ha, hproj.1, hproj.2.1, hproj.2.2⟩

/-- C2 witness: for the three-attempt scenario with costs of a tenth,
three twentieths and a fifth of a dollar where only the third attempt
succeeds, the agent's total cost is nine twentieths (0.45) and its final
duration is the third attempt's 9000 ms. -/
theorem c2_total_cost_witness :
    ∃ a, lookupAgent (replayEndAgents fxPhaseOf fxEndOps).agents "pre-recon"
        = some a
      ∧ a.total_cost_usd = 45/100
      ∧ a.final_duration_ms = 9000
      ∧ a.attempts.length = 3 := by
  obtain ⟨a, ha, hatt, hcost, hfin⟩ := c2_total_cost_over_all_attempts
    fxPhaseOf fxEndOps "pre-recon" (by decide)
  refine ⟨a, ha, ?_, ?_, ?_⟩
  · rw [hcost]
    simp [fxEndOps]
    norm_num
  · rw [hfin]
    decide
  · rw [hatt]
    decide

end Shaart
